import Mathlib

/-!
Verification development for the mathrepl interactive arithmetic evaluator
(src/mathrepl.c).  The C program is shallowly embedded: C `double` values are
modelled as exact rationals (ℚ), the NUL-terminated line buffer as a
`List Char` (reading past the end yields the NUL character), and the
goto-based two-state evaluator as a small-step machine over an explicit
configuration.  Out-of-range array accesses that the C code would perform
blindly are made explicit as a distinguished `oob` outcome, and the
`fprintf`+`exit(1)` "broken parser" branch as a distinguished `abort`
outcome.
-/

namespace MathRepl

/-- `NodeType` enum from mathrepl.c. -/
inductive NodeType where
  | NT_Global
  | NT_Newline
  | NT_Error
  | NT_OpenPar
  | NT_ClosePar
  | NT_Identifier
  | NT_Number
  | NT_Minus
  | NT_Add
  | NT_Subtract
  | NT_Multiply
  | NT_Divide
  | NT_Power
  | NT_Factorial
deriving DecidableEq, Repr

/-- `Node` struct: token kind, size, byte position and payload.  The C union
(name / error / integer / real) is modelled by separate fields with the same
zero-initialised defaults the C code relies on; the `integer` member is never
used by the program and is omitted. -/
structure Node where
  type : NodeType := .NT_Global
  size : Nat := 0
  pos : Nat := 0
  name : List Char := []
  error : String := ""
  real : ℚ := 0
deriving DecidableEq, Repr

/-- The NUL terminator of the C line buffer. -/
def NUL : Char := Char.ofNat 0

/-- Reading the line buffer at byte offset `i`; past the end of the supplied
line the C buffer holds the NUL terminator. -/
def charAt (line : List Char) (i : Nat) : Char :=
  if h : i < line.length then line.get ⟨i, h⟩ else NUL

/-- `is_character` from mathrepl.c. -/
def is_character (c : Char) : Bool :=
  ('A' ≤ c && c ≤ 'Z') || ('a' ≤ c && c ≤ 'z')

/-- `is_alnum` from mathrepl.c. -/
def is_alnum (c : Char) : Bool :=
  ('A' ≤ c && c ≤ 'Z') || ('a' ≤ c && c ≤ 'z') || ('0' ≤ c && c ≤ '9')

/-- Whitespace skipped by `get_token` (space and tab). -/
def is_space (c : Char) : Bool := c = ' ' || c = '\t'

/-- Length of the leading run of spaces/tabs of a character list.  Scanning
from byte offset `i` of the NUL-terminated buffer is the same as scanning
the suffix `line.drop i` (past the end the buffer holds NUL, which is not
whitespace). -/
def countSpaces : List Char → Nat
  | [] => 0
  | c :: rest => if is_space c then countSpaces rest + 1 else 0

/-- The leading `while (*it==' ' || *it=='\t') it += 1;` of `get_token`. -/
def skipSpaces (line : List Char) (i : Nat) : Nat :=
  i + countSpaces (line.drop i)

/-- Decimal digit test (same range as the C `'0'...'9'` case). -/
def isDigitC (c : Char) : Bool := '0' ≤ c && c ≤ '9'

/-- Value and length of the leading run of decimal digits of a character
list, the accumulator seeded with `acc`. -/
def digitsRun : List Char → Nat → Nat × Nat
  | [], acc => (acc, 0)
  | c :: rest, acc =>
    if isDigitC c then
      ((digitsRun rest (acc * 10 + (c.toNat - 48))).1,
        (digitsRun rest (acc * 10 + (c.toNat - 48))).2 + 1)
    else (acc, 0)

/-- Consume the run of decimal digits starting at byte offset `i`; returns
(value, digit count, index after the run). -/
def takeDigits (line : List Char) (i : Nat) : Nat × Nat × Nat :=
  ((digitsRun (line.drop i) 0).1, (digitsRun (line.drop i) 0).2,
    i + (digitsRun (line.drop i) 0).2)

/-- Length of the leading run of alphanumeric characters of a character
list. -/
def countAlnum : List Char → Nat
  | [] => 0
  | c :: rest => if is_alnum c then countAlnum rest + 1 else 0

/-- The `do { it += 1; } while (is_alnum(*it));` scan of an identifier: given
the index after the identifier's first character, return the index one past
its last alphanumeric character. -/
def scanAlnum (line : List Char) (i : Nat) : Nat :=
  i + countAlnum (line.drop i)

/-- Powers of ten, written out structurally so that values reduce inside the
kernel. -/
def tenPow : Nat → Nat
  | 0 => 1
  | n + 1 => tenPow n * 10

/-- Model of the libc `strtod` call in `get_token`, which is only reached
when the current character is a decimal digit: longest decimal prefix
`digits [ . digits ] [ (e|E) [+|-] digits ]`, with backtracking when the
exponent has no digits.  Values are exact rationals (C computes the nearest
`double`); hexadecimal literals are not modelled. -/
def strtodModel (line : List Char) (i : Nat) : ℚ × Nat :=
  let ip := takeDigits line i
  let mant : ℚ × Nat :=
    if charAt line ip.2.2 = '.' then
      let fp := takeDigits line (ip.2.2 + 1)
      (mkRat (Int.ofNat (ip.1 * tenPow fp.2.1 + fp.1)) (tenPow fp.2.1), fp.2.2)
    else (mkRat (Int.ofNat ip.1) 1, ip.2.2)
  if charAt line mant.2 = 'e' || charAt line mant.2 = 'E' then
    let s := charAt line (mant.2 + 1)
    let digStart := if s = '-' || s = '+' then mant.2 + 2 else mant.2 + 1
    let ep := takeDigits line digStart
    if ep.2.1 = 0 then mant
    else if s = '-' then (mant.1 * mkRat 1 (tenPow ep.1), ep.2.2)
    else (mant.1 * mkRat (Int.ofNat (tenPow ep.1)) 1, ep.2.2)
  else mant

/-- The case labels of the `get_token` switch: which token kind the current
character opens.  The C default branch (neither a known single character
nor a letter) is rendered as `NT_Error`. -/
def classify (c : Char) : NodeType :=
  if c = NUL || c = '\n' then .NT_Newline
  else if isDigitC c then .NT_Number
  else if c = '(' then .NT_OpenPar
  else if c = ')' then .NT_ClosePar
  else if c = '+' then .NT_Add
  else if c = '-' then .NT_Subtract
  else if c = '*' then .NT_Multiply
  else if c = '/' then .NT_Divide
  else if c = '^' then .NT_Power
  else if c = '!' then .NT_Factorial
  else if is_character c then .NT_Identifier
  else .NT_Error

/-- Body of `get_token` after the whitespace skip: classify the character at
`it` and build the token, returning the token and the advanced cursor. -/
def tokenAt (line : List Char) (it : Nat) : Node × Nat :=
  match classify (charAt line it) with
  | .NT_Newline => ({ type := .NT_Newline, pos := it }, it + 1)
  | .NT_Number =>
    ({ type := .NT_Number, pos := it, real := (strtodModel line it).1 },
      (strtodModel line it).2)
  | .NT_OpenPar => ({ type := .NT_OpenPar, pos := it }, it + 1)
  | .NT_ClosePar => ({ type := .NT_ClosePar, pos := it }, it + 1)
  | .NT_Add => ({ type := .NT_Add, pos := it }, it + 1)
  | .NT_Subtract => ({ type := .NT_Subtract, pos := it }, it + 1)
  | .NT_Multiply => ({ type := .NT_Multiply, pos := it }, it + 1)
  | .NT_Divide => ({ type := .NT_Divide, pos := it }, it + 1)
  | .NT_Power => ({ type := .NT_Power, pos := it }, it + 1)
  | .NT_Factorial => ({ type := .NT_Factorial, pos := it }, it + 1)
  | .NT_Identifier =>
    if scanAlnum line (it + 1) - it > 64 then
      ({ type := .NT_Error, pos := it, error := "identifier name too long" },
        scanAlnum line (it + 1))
    else
      ({ type := .NT_Identifier, pos := it, size := scanAlnum line (it + 1) - it,
         name := (line.drop it).take (scanAlnum line (it + 1) - it) },
        scanAlnum line (it + 1))
  | _ => ({ type := .NT_Error, pos := it, error := "unrecognized token" }, it)

/-- `get_token` from mathrepl.c: skip spaces/tabs, record the position, then
classify.  Returns the token and the advanced cursor (`*iter`). -/
def get_token (line : List Char) (it : Nat) : Node × Nat :=
  tokenAt line (skipSpaces line it)

/-- `DataType` enum from mathrepl.c. -/
inductive DataType where
  | DT_Void
  | DT_Error
  | DT_Real
deriving DecidableEq, Repr

/-- `Value` struct: runtime datum.  The C union members `integer` and
`string` are never used by the program and are omitted; for an error Value
the `size` field carries the source byte offset (the program's deliberate
overload). -/
structure Value where
  type : DataType := .DT_Void
  size : Nat := 0
  real : ℚ := 0
  error : String := ""
deriving DecidableEq, Repr

/-- `SYMBOL_CAPACITY` from mathrepl.c: the fixed size of the three parallel
arrays of `SymbolTable`. -/
def SYMBOL_CAPACITY : Nat := 64

/-- `SymbolTable`: the C struct keeps `symbol_count` and three parallel
64-entry arrays (names, name_sizes, values); the model keeps the list of
(name, value) pairs in insertion order — `symbol_count` is the list length,
and a name slice together with its size is one `List Char`.  The fixed
64-entry capacity is NOT part of the model because the C code never checks
it; `SYMBOL_CAPACITY` records the array size for statements about it. -/
structure SymbolTable where
  entries : List (List Char × Value) := []
deriving DecidableEq, Repr

/-- `get_identifier`: linear scan by exact length-and-bytes match, returning
the stored value or the "identifier not found" error Value. -/
def get_identifier (symbols : SymbolTable) (name : List Char) : Value :=
  match symbols.entries.find? (fun e => e.1 == name) with
  | some e => e.2
  | none => { type := .DT_Error, error := "identifier not found" }

/-- Recursive core of `set_identifier`: overwrite the first entry with an
equal name, else append at the end.  Mirrors the C loop followed by the
unconditional append — there is no capacity check in the source. -/
def set_entries : List (List Char × Value) → List Char → Value → List (List Char × Value)
  | [], name, value => [(name, value)]
  | e :: rest, name, value =>
    if e.1 == name then (e.1, value) :: rest
    else e :: set_entries rest name value

/-- `set_identifier` from mathrepl.c. -/
def set_identifier (symbols : SymbolTable) (name : List Char) (value : Value) : SymbolTable :=
  { entries := set_entries symbols.entries name value }

/-- `Precedence` struct: left and right binding precedence. -/
structure Precedence where
  left : Nat
  right : Nat
deriving DecidableEq, Repr

/-- `get_prec` from mathrepl.c, including the `default: {255, 255}` row. -/
def get_prec : NodeType → Precedence
  | .NT_Newline => ⟨1, 0⟩
  | .NT_Global => ⟨0, 0⟩
  | .NT_ClosePar => ⟨1, 0⟩
  | .NT_OpenPar => ⟨99, 0⟩
  | .NT_Minus => ⟨59, 59⟩
  | .NT_Add => ⟨50, 50⟩
  | .NT_Subtract => ⟨50, 50⟩
  | .NT_Multiply => ⟨55, 55⟩
  | .NT_Divide => ⟨55, 55⟩
  | .NT_Power => ⟨61, 60⟩
  | .NT_Factorial => ⟨62, 62⟩
  | _ => ⟨255, 255⟩

/-- Model of the math.h `pow` call in the power fold: exact for integer
exponents (the only exponents with rational results in general); a
fractional exponent's irrational result is not representable in ℚ and is
abstracted to 0 — the program's power fold rejects negative bases before
ever calling `pow`, and no statement below inspects a fractional power. -/
def qpow (b : ℚ) : Nat → ℚ
  | 0 => 1
  | n + 1 => qpow b n * b

def powQ (b e : ℚ) : ℚ :=
  if e.den = 1 then
    (if 0 ≤ e.num then qpow b e.num.toNat else (qpow b (-e.num).toNat)⁻¹)
  else 0

/-- Model of the math.h `tgamma` call in the factorial branch: exact for
positive integer arguments (Γ(n) = (n-1)!); non-integer arguments are
abstracted to 0 — no statement below inspects a non-integer gamma value. -/
def gammaQ (x : ℚ) : ℚ :=
  if x.den = 1 ∧ 1 ≤ x.num then Nat.factorial (x.num.toNat - 1) else 0

/-- The `ERROR_VALUE(msg, pos)` macro of `evaluate_line`: an error Value with
the byte offset stored in the (reused) `size` field. -/
def errValue (msg : String) (pos : Nat) : Value :=
  { type := .DT_Error, size := pos, error := msg }

/-- Control point of `evaluate_line`: the two labels `ExpectValue` and
`ExpectOperator`, plus the inner positions of `ExpectOperator` once the
token `curr` has been read — the fold loop and the dispatch switch after
the fold loop breaks. -/
inductive EvalState where
  | expectValue
  | expectOperator
  | fold (curr : Node)
  | dispatch (curr : Node)
deriving DecidableEq, Repr

/-- Working state of one `evaluate_line` call: cursor `it`, operator stack
`opers` (head = top; the C array cell `opers[k]` is the list element at
distance `k` from the bottom, so the list length is `opers_size`), value
stack `stack` (head = top, length = `stack_size`), and the control point. -/
structure Config where
  it : Nat := 0
  opers : List Node := []
  stack : List Value := []
  state : EvalState := .expectValue
deriving DecidableEq, Repr

/-- Result of one step: continue in a new configuration, return a Value,
hit the `fprintf(stderr, "ERROR: broken parser"); exit(1)` branch
(`abort`), or perform an array access outside the active region that the C
code would perform blindly (`oob`). -/
inductive StepResult where
  | next (c : Config)
  | done (v : Value)
  | abort
  | oob
deriving DecidableEq, Repr

/-- `ExpectValue` label body, applied to the token just read (`r.1`) and the
advanced cursor (`r.2`). -/
def stepEV (symbols : SymbolTable) (c : Config) (r : Node × Nat) : StepResult :=
  if r.1.type = .NT_Error then .done (errValue r.1.error r.1.pos) else
  match r.1.type with
  | .NT_OpenPar => .next { c with it := r.2, opers := r.1 :: c.opers }
  | .NT_Add => .next { c with it := r.2 }
  | .NT_Subtract =>
    .next { c with it := r.2, opers := { r.1 with type := .NT_Minus } :: c.opers }
  | .NT_Identifier =>
    if (get_identifier symbols r.1.name).type = .DT_Error then
      .done { get_identifier symbols r.1.name with size := r.1.pos }
    else
      .next { c with it := r.2, stack := get_identifier symbols r.1.name :: c.stack, state := .expectOperator }
  | .NT_Number =>
    .next { c with it := r.2, stack := { type := .DT_Real, real := r.1.real } :: c.stack, state := .expectOperator }
  | _ => .done (errValue "expected value" r.1.pos)

/-- `ExpectOperator` label head: read one token, propagate a lexical error,
otherwise enter the fold loop with that token. -/
def stepEO (c : Config) (r : Node × Nat) : StepResult :=
  if r.1.type = .NT_Error then .done (errValue r.1.error r.1.pos)
  else .next { c with it := r.2, state := .fold r.1 }

/-- One iteration of the fold loop of `ExpectOperator`: break to the
dispatch switch when the top operator's right precedence is below the
incoming token's left precedence, otherwise pop and apply the top
operator.  The `_` arm is the C `default: exit(1)` branch. -/
def stepFold (c : Config) (curr : Node) : StepResult :=
  match c.opers with
  | [] => .oob
  | top :: rest =>
    if (get_prec top.type).right < (get_prec curr.type).left then
      .next { c with state := .dispatch curr }
    else
      match top.type with
      | .NT_Minus =>
        match c.stack with
        | [] => .oob
        | a :: s =>
          if a.type ≠ .DT_Real then .done (errValue "wrong data type" top.pos)
          else .next { c with opers := rest, stack := { a with real := -a.real } :: s }
      | .NT_Add =>
        match c.stack with
        | a :: b :: s =>
          if a.type ≠ .DT_Real ∨ b.type ≠ .DT_Real then
            .done (errValue "wrong data type" top.pos)
          else .next { c with opers := rest, stack := { b with real := b.real + a.real } :: s }
        | _ => .oob
      | .NT_Subtract =>
        match c.stack with
        | a :: b :: s =>
          if a.type ≠ .DT_Real ∨ b.type ≠ .DT_Real then
            .done (errValue "wrong data type" top.pos)
          else .next { c with opers := rest, stack := { b with real := b.real - a.real } :: s }
        | _ => .oob
      | .NT_Multiply =>
        match c.stack with
        | a :: b :: s =>
          if a.type ≠ .DT_Real ∨ b.type ≠ .DT_Real then
            .done (errValue "wrong data type" top.pos)
          else .next { c with opers := rest, stack := { b with real := b.real * a.real } :: s }
        | _ => .oob
      | .NT_Divide =>
        match c.stack with
        | a :: b :: s =>
          if a.type ≠ .DT_Real ∨ b.type ≠ .DT_Real then
            .done (errValue "wrong data type" top.pos)
          else if a.real = 0 then .done (errValue "divide by zero" top.pos)
          else .next { c with opers := rest, stack := { b with real := b.real / a.real } :: s }
        | _ => .oob
      | .NT_Power =>
        match c.stack with
        | a :: b :: s =>
          if a.type ≠ .DT_Real ∨ b.type ≠ .DT_Real then
            .done (errValue "wrong data type" top.pos)
          else if b.real < 0 then .done (errValue "negative power base" top.pos)
          else .next { c with opers := rest, stack := { b with real := powQ b.real a.real } :: s }
        | _ => .oob
      | _ => .abort

/-- The switch after the fold loop of `ExpectOperator`: push a binary
operator, apply factorial in place, finish on end of line, pop a matching
open parenthesis, or report "expected operator". -/
def stepDispatch (c : Config) (curr : Node) : StepResult :=
  match curr.type with
  | .NT_Add => .next { c with opers := curr :: c.opers, state := .expectValue }
  | .NT_Subtract => .next { c with opers := curr :: c.opers, state := .expectValue }
  | .NT_Multiply => .next { c with opers := curr :: c.opers, state := .expectValue }
  | .NT_Divide => .next { c with opers := curr :: c.opers, state := .expectValue }
  | .NT_Power => .next { c with opers := curr :: c.opers, state := .expectValue }
  | .NT_Factorial =>
    match c.stack with
    | [] => .oob
    | a :: s =>
      if a.type ≠ .DT_Real then .done (errValue "wrong data type" curr.pos)
      else if a.real < 0 then .done (errValue "factorial of negative number" curr.pos)
      else .next { c with stack := { a with real := gammaQ (1 + a.real) } :: s, state := .expectOperator }
  | .NT_Newline =>
    if c.opers.length ≠ 1 then .done (errValue "parenthesis not closed" curr.pos)
    else
      match c.stack.getLast? with
      | some v => .done v
      | none => .oob
  | .NT_ClosePar =>
    match c.opers with
    | [] => .oob
    | top :: rest =>
      if top.type ≠ .NT_OpenPar then .done (errValue "mismatched parenthesis" curr.pos)
      else .next { c with opers := rest, state := .expectOperator }
  | _ => .done (errValue "expected operator" curr.pos)

/-- One small step of `evaluate_line`'s control flow. -/
def step (symbols : SymbolTable) (line : List Char) (c : Config) : StepResult :=
  match c.state with
  | .expectValue => stepEV symbols c (get_token line c.it)
  | .expectOperator => stepEO c (get_token line c.it)
  | .fold curr => stepFold c curr
  | .dispatch curr => stepDispatch c curr

/-- Outcome of iterating `step` for a bounded number of steps: `more c`
when the budget ran out in configuration `c` (so `runEval s l n initConfig
= .more c` exactly characterises the configuration reached after `n`
steps), otherwise the final outcome. -/
inductive RunResult where
  | more (c : Config)
  | done (v : Value)
  | abort
  | oob
deriving DecidableEq, Repr

/-- Iterate `step` at most `n` times. -/
def runEval (symbols : SymbolTable) (line : List Char) : Nat → Config → RunResult
  | 0, c => .more c
  | n + 1, c =>
    match step symbols line c with
    | .next c2 => runEval symbols line n c2
    | .done v => .done v
    | .abort => .abort
    | .oob => .oob

/-- The initial configuration of `evaluate_line`: cursor at the start of the
line, `opers[0]` holding the `NT_Global` sentinel (`opers_size = 1`), empty
value stack, control at `ExpectValue`. -/
def initConfig : Config :=
  { it := 0, opers := [{ type := .NT_Global }], stack := [], state := .expectValue }

/-- `evaluate_line` from mathrepl.c: run the state machine to completion.
Every control transition either consumes at least one input byte or pops
one pending operator, so `6 * length + 8` steps always suffice; `none`
(budget exhausted) is unreachable in practice, and the abort / blind-access
outcomes also yield `none`. -/
def evaluate_line (symbols : SymbolTable) (line : List Char) : Option Value :=
  match runEval symbols line (6 * line.length + 8) initConfig with
  | .done v => some v
  | _ => none

/-- The symbol table as seeded by `main`: `e` then `pi`, both `DT_Real`.
The C constants `M_E` and `M_PI` are the doubles written
2.718281828459045 and 3.141592653589793 (their shortest round-trip decimal
forms), which is how the model renders them in ℚ. -/
def seedSymbols : SymbolTable :=
  set_identifier
    (set_identifier { entries := [] } ("e".toList)
      { type := .DT_Real, real := 2.718281828459045 })
    ("pi".toList) { type := .DT_Real, real := 3.141592653589793 }

/-- Real-valued result of evaluating one line against the seeded table. -/
def evalReal (line : List Char) : Option ℚ :=
  match evaluate_line seedSymbols line with
  | some v => if v.type = .DT_Real then some v.real else none
  | none => none

/-- Error result (message, byte offset) of evaluating one line against the
seeded table. -/
def evalErr (line : List Char) : Option (String × Nat) :=
  match evaluate_line seedSymbols line with
  | some v => if v.type = .DT_Error then some (v.error, v.size) else none
  | none => none

/-- The 65-consecutive-open-parentheses line named by the deep-nesting
claim; it fits comfortably in the 256-byte line buffer. -/
def line65 : List Char := List.replicate 65 '('

/-- Length of the operator stack after exactly `n` steps on `line` (0 when
evaluation finished before `n` steps).  The C code pushes `opers[opers_size]`
with `opers_size` equal to the current list length, so a list length of 65
means the C code has written `opers[64]`, one past the 64-slot array. -/
def opersLenAfter (symbols : SymbolTable) (line : List Char) (n : Nat) : Nat :=
  match runEval symbols line n initConfig with
  | .more c => c.opers.length
  | _ => 0

/-- Growth bound on a run: after `n` steps the operator stack holds at most
`n + 1` nodes and the value stack at most `n` values. -/
def lengthsWithin (r : RunResult) (n : Nat) : Prop :=
  match r with
  | .more c => c.opers.length ≤ n + 1 ∧ c.stack.length ≤ n
  | _ => True

/-- Whether a bounded run hit the `exit(1)` "broken parser" branch. -/
def runEvalAborts (symbols : SymbolTable) (line : List Char) (n : Nat) : Bool :=
  match runEval symbols line n initConfig with
  | .abort => true
  | _ => false

/-- The `i`-th of 65 pairwise distinct one-character names used to overfill
the symbol table. -/
def distinctName (i : Nat) : List Char := [Char.ofNat (65 + i)]

/-- The table after inserting 65 distinct names into an initially empty
table, mirroring 65 `set_identifier` calls. -/
def overfilledTable : SymbolTable :=
  (List.range 65).foldl
    (fun t i => set_identifier t (distinctName i) { type := .DT_Real, real := 0 })
    { entries := [] }

/-- Operator kinds that can actually sit on the operator stack: the bottom
sentinel, open parentheses, unary minus, and the five binary operators. -/
def okOper (t : NodeType) : Prop :=
  t = .NT_Global ∨ t = .NT_OpenPar ∨ t = .NT_Minus ∨ t = .NT_Add ∨
  t = .NT_Subtract ∨ t = .NT_Multiply ∨ t = .NT_Divide ∨ t = .NT_Power

/-- All nodes of an operator stack have stackable kinds. -/
def opersOKL (l : List Node) : Prop := ∀ nd ∈ l, okOper nd.type

/-- In the fold loop and the dispatch switch, the incoming token was
produced by `get_token` and hence is never the `NT_Global` sentinel (the
only kind whose left precedence is 0). -/
def currOKS : EvalState → Prop
  | .fold curr => curr.type ≠ .NT_Global
  | .dispatch curr => curr.type ≠ .NT_Global
  | _ => True

/-- Invariant guaranteeing the fold loop's `default: exit(1)` branch stays
unreachable. -/
def InvA (c : Config) : Prop := opersOKL c.opers ∧ currOKS c.state

/-- All values of a value stack are of kind `DT_Real`. -/
def stackOKL (l : List Value) : Prop := ∀ v ∈ l, v.type = .DT_Real

/-- All values stored in a symbol table are of kind `DT_Real` (true of the
table seeded by `main`, which is never written during evaluation). -/
def tableOK (s : SymbolTable) : Prop := ∀ e ∈ s.entries, e.2.type = .DT_Real

/-- A returned Value that is not the "wrong data type" error. -/
def goodDone (v : Value) : Prop :=
  ¬ (v.type = .DT_Error ∧ v.error = "wrong data type")

/-- Every value on the stack of an unfinished run is `DT_Real`. -/
def stackAllRealR : RunResult → Prop
  | .more c => stackOKL c.stack
  | _ => True

/-- A finished run never returns the "wrong data type" error. -/
def noWrongTypeR : RunResult → Prop
  | .done v => goodDone v
  | _ => True

/-- An `evaluate_line` result that is not the "wrong data type" error. -/
def evalGood : Option Value → Prop
  | some v => goodDone v
  | none => True

/-!  Theorems.  The Batteries rational operations are `@[irreducible]` by
default; re-marking them semireducible lets concrete runs of the evaluator
be settled by `decide`. -/

attribute [local semireducible] Rat.add Rat.sub Rat.mul Rat.inv Rat.ofScientific

/-- C1: the fold comparison of `stepFold` pops a pending operator exactly
when the top operator's right-binding precedence is ≥ the incoming token's
left-binding precedence, with the table add/subtract {50,50},
multiply/divide {55,55}, power {61,60}; consequently "2 - 3 - 4" yields -5
(left-associative subtraction), "2 ^ 3 ^ 2" yields 512 (right-associative
power), "2 + 3 * 4" yields 14 and "(2 + 3) * 4" yields 20. -/
theorem c1_precedence_and_associativity :
    get_prec .NT_Add = ⟨50, 50⟩ ∧ get_prec .NT_Subtract = ⟨50, 50⟩ ∧
    get_prec .NT_Multiply = ⟨55, 55⟩ ∧ get_prec .NT_Divide = ⟨55, 55⟩ ∧
    get_prec .NT_Power = ⟨61, 60⟩ ∧
    evalReal ("2 - 3 - 4".toList) = some (-5) ∧
    evalReal ("2 ^ 3 ^ 2".toList) = some 512 ∧
    evalReal ("2 + 3 * 4".toList) = some 14 ∧
    evalReal ("(2 + 3) * 4".toList) = some 20 := by
  decide

/-- C2 counterexample: evaluating "1 + (2 *" does NOT produce the
closing-parenthesis complaint — the error message actually produced
differs from "parenthesis not closed" (and its offset is the end-of-line
position 8, not the position 4 of the open parenthesis). -/
theorem c2_counterexample :
    (evalErr ("1 + (2 *".toList)).map Prod.fst ≠ some "parenthesis not closed" := by
  decide

/-- C2 amended: evaluating "1 + (2 *" produces an error Value whose
diagnostic is "expected value" and whose byte offset is 8, the end-of-line
position — the caret is rendered at the end of the line, not under the
`(`. -/
theorem c2_amended_expected_value :
    evalErr ("1 + (2 *".toList) = some ("expected value", 8) := by
  decide

/-- C3: `set_identifier` has no capacity guard — 65 `set` calls with
pairwise distinct names on an initially empty table drive `symbol_count`
to 65, strictly past `SYMBOL_CAPACITY` = 64; the 65th insert is the write
of `names[64]`, `name_sizes[64]` and `values[64]`, one slot past each
fixed 64-entry array, instead of being rejected. -/
theorem c3_capacity_overflow :
    overfilledTable.entries.length = 65 ∧
    SYMBOL_CAPACITY < overfilledTable.entries.length := by
  decide

/-- C6: error byte offsets are exact — "1 +" fails with "expected value" at
the end-of-line offset 3, and "1 / 0" fails with "divide by zero" at
offset 2, the position of the `/` operator token. -/
theorem c6_error_offsets :
    evalErr ("1 +".toList) = some ("expected value", 3) ∧
    evalErr ("1 / 0".toList) = some ("divide by zero", 2) := by
  decide

/-- C7: a negative left operand of power yields "negative power base" (the
check precedes the `pow` call in the power fold), and factorial of a
negative operand yields "factorial of negative number" (the check precedes
the `tgamma` call): "(-1) ^ 0.5" and "(-1)!" fail accordingly. -/
theorem c7_negative_domain_guards :
    evalErr ("(-1) ^ 0.5".toList) = some ("negative power base", 5) ∧
    evalErr ("(-1)!".toList) = some ("factorial of negative number", 4) := by
  decide

/-- C8: a subtract token read in value-expecting position is re-tagged as
unary minus with precedence {59,59} and pushed on the operator stack, so
unary minus binds tighter than binary add/subtract: "-2 - -3" yields 1. -/
theorem c8_unary_minus :
    get_prec .NT_Minus = ⟨59, 59⟩ ∧
    evalReal ("-2 - -3".toList) = some 1 := by
  decide

/-- C9: the table seeded by `main` holds exactly the two real-valued
entries e = 2.718281828459045 and pi = 3.141592653589793, so the lines
"e" and "pi" evaluate to those values, while "foo" fails with
"identifier not found" at offset 0 (the identifier token's position,
filled in by the evaluator). -/
theorem c9_seeded_constants :
    seedSymbols.entries =
      [("e".toList, { type := .DT_Real, real := 2.718281828459045 }),
       ("pi".toList, { type := .DT_Real, real := 3.141592653589793 })] ∧
    evalReal ("e".toList) = some 2.718281828459045 ∧
    evalReal ("pi".toList) = some 3.141592653589793 ∧
    evalErr ("foo".toList) = some ("identifier not found", 0) := by
  decide

/-- Every token built by `tokenAt` has a kind other than `NT_Global`
(the C lexer sets `res.type` in every branch of its switch). -/
lemma tokenAt_ne_global (line : List Char) (it : Nat) :
    (tokenAt line it).1.type ≠ .NT_Global := by
  unfold tokenAt
  cases h : classify (charAt line it)
  all_goals simp [h]
  all_goals split <;> simp

/-- Every token built by `get_token` has a kind other than `NT_Global`. -/
lemma get_token_ne_global (line : List Char) (it : Nat) :
    (get_token line it).1.type ≠ .NT_Global := by
  unfold get_token
  exact tokenAt_ne_global line (skipSpaces line it)

/-- The only diagnostics the lexer itself can carry are its two lexical
messages (or the empty default); in particular never "wrong data type". -/
lemma tokenAt_error_ne (line : List Char) (it : Nat) :
    (tokenAt line it).1.error ≠ "wrong data type" := by
  unfold tokenAt
  cases h : classify (charAt line it)
  all_goals simp [h]
  all_goals try (split <;> simp)
  all_goals decide

/-- `get_token` never carries the diagnostic "wrong data type". -/
lemma get_token_error_ne (line : List Char) (it : Nat) :
    (get_token line it).1.error ≠ "wrong data type" := by
  unfold get_token
  exact tokenAt_error_ne line (skipSpaces line it)

/-- Every kind other than the `NT_Global` sentinel has left-binding
precedence at least 1 in `get_prec`. -/
lemma prec_left_pos (t : NodeType) (h : t ≠ .NT_Global) :
    0 < (get_prec t).left := by
  cases t <;> first | exact absurd rfl h | decide

/-- The last element of a list is an element of it. -/
lemma mem_of_getLast?_eq_some {α : Type} {l : List α} {v : α}
    (h : l.getLast? = some v) : v ∈ l := by
  induction l with
  | nil => simp [List.getLast?] at h
  | cons a rest ih =>
    cases hr : rest with
    | nil =>
      rw [hr] at h
      simp [List.getLast?] at h
      simp [h]
    | cons b rest2 =>
      rw [hr] at h ih
      rw [List.getLast?_cons_cons] at h
      exact List.mem_cons_of_mem a (ih h)

/-- The `ExpectValue` body never reaches the `exit(1)` branch. -/
lemma stepEV_ne_abort (s : SymbolTable) (c : Config) (r : Node × Nat) :
    stepEV s c r ≠ .abort := by
  unfold stepEV
  repeat' split
  all_goals simp

/-- The `ExpectOperator` head never reaches the `exit(1)` branch. -/
lemma stepEO_ne_abort (c : Config) (r : Node × Nat) :
    stepEO c r ≠ .abort := by
  unfold stepEO
  split <;> simp

/-- The dispatch switch never reaches the `exit(1)` branch. -/
lemma stepDispatch_ne_abort (c : Config) (curr : Node) :
    stepDispatch c curr ≠ .abort := by
  unfold stepDispatch
  repeat' split
  all_goals simp

/-- The fold loop never reaches the `exit(1)` branch: when every stacked
operator has a stackable kind and the incoming token is not the sentinel,
the sentinel and open-paren rows (right precedence 0) always fail the fold
comparison against a left precedence ≥ 1, so only the six recognized
operator kinds are ever folded. -/
lemma stepFold_ne_abort (c : Config) (curr : Node)
    (hop : opersOKL c.opers) (hcur : curr.type ≠ .NT_Global) :
    stepFold c curr ≠ .abort := by
  have hlp := prec_left_pos curr.type hcur
  unfold stepFold
  split
  · simp
  rename_i top rest heq
  have htop : okOper top.type := hop top (by rw [heq]; exact List.mem_cons_self top rest)
  split
  · simp
  rename_i hpr
  rcases htop with h | h | h | h | h | h | h | h
  · exfalso
    rw [h, show (get_prec NodeType.NT_Global).right = 0 from rfl] at hpr
    omega
  · exfalso
    rw [h, show (get_prec NodeType.NT_OpenPar).right = 0 from rfl] at hpr
    omega
  all_goals rw [h]
  all_goals simp only []
  all_goals repeat' split
  all_goals simp

/-- A step out of `ExpectValue` preserves the fold invariant: only
open-paren and unary-minus nodes are pushed onto the operator stack. -/
lemma stepEV_next_invA (s : SymbolTable) (c c2 : Config) (r : Node × Nat)
    (hst : c.state = .expectValue) (hop : opersOKL c.opers) :
    stepEV s c r = .next c2 → InvA c2 := by
  intro hx
  unfold stepEV at hx
  split at hx
  · exact StepResult.noConfusion hx
  split at hx
  · rename_i heq
    cases hx
    refine ⟨?_, ?_⟩
    · intro nd hnd
      rcases List.mem_cons.mp hnd with h1 | h1
      · rw [h1]
        simp [okOper, heq]
      · exact hop nd h1
    · show currOKS c.state
      rw [hst]
      exact trivial
  · cases hx
    refine ⟨hop, ?_⟩
    show currOKS c.state
    rw [hst]
    exact trivial
  · cases hx
    refine ⟨?_, ?_⟩
    · intro nd hnd
      rcases List.mem_cons.mp hnd with h1 | h1
      · rw [h1]
        simp [okOper]
      · exact hop nd h1
    · show currOKS c.state
      rw [hst]
      exact trivial
  · split at hx
    · exact StepResult.noConfusion hx
    · cases hx
      exact ⟨hop, trivial⟩
  · cases hx
    exact ⟨hop, trivial⟩
  · exact StepResult.noConfusion hx

/-- A step out of `ExpectOperator` preserves the fold invariant: the token
entering the fold loop comes from `get_token` and is never the sentinel. -/
lemma stepEO_next_invA (c c2 : Config) (r : Node × Nat)
    (hop : opersOKL c.opers) (hr : r.1.type ≠ .NT_Global) :
    stepEO c r = .next c2 → InvA c2 := by
  intro hx
  unfold stepEO at hx
  split at hx
  · exact StepResult.noConfusion hx
  · cases hx
    exact ⟨hop, hr⟩

/-- A fold iteration preserves the invariant: it only pops operators. -/
lemma stepFold_next_invA (c c2 : Config) (curr : Node)
    (hst : c.state = .fold curr) (hop : opersOKL c.opers)
    (hcur : curr.type ≠ .NT_Global) :
    stepFold c curr = .next c2 → InvA c2 := by
  intro hx
  unfold stepFold at hx
  split at hx
  · exact StepResult.noConfusion hx
  rename_i top rest heq
  have hrest : opersOKL rest := fun nd hnd =>
    hop nd (by rw [heq]; exact List.mem_cons_of_mem top hnd)
  split at hx
  · cases hx
    exact ⟨hop, hcur⟩
  repeat' split at hx
  all_goals first
    | exact StepResult.noConfusion hx
    | (cases hx
       refine ⟨hrest, ?_⟩
       show currOKS c.state
       rw [hst]
       exact hcur)

/-- A dispatch step preserves the invariant: it pushes only the five binary
operator kinds and pops only open parentheses. -/
lemma stepDispatch_next_invA (c c2 : Config) (curr : Node)
    (hop : opersOKL c.opers) :
    stepDispatch c curr = .next c2 → InvA c2 := by
  intro hx
  unfold stepDispatch at hx
  split at hx
  case _ heq =>
    cases hx
    refine ⟨?_, trivial⟩
    intro nd hnd
    rcases List.mem_cons.mp hnd with h1 | h1
    · rw [h1]
      simp [okOper, heq]
    · exact hop nd h1
  case _ heq =>
    cases hx
    refine ⟨?_, trivial⟩
    intro nd hnd
    rcases List.mem_cons.mp hnd with h1 | h1
    · rw [h1]
      simp [okOper, heq]
    · exact hop nd h1
  case _ heq =>
    cases hx
    refine ⟨?_, trivial⟩
    intro nd hnd
    rcases List.mem_cons.mp hnd with h1 | h1
    · rw [h1]
      simp [okOper, heq]
    · exact hop nd h1
  case _ heq =>
    cases hx
    refine ⟨?_, trivial⟩
    intro nd hnd
    rcases List.mem_cons.mp hnd with h1 | h1
    · rw [h1]
      simp [okOper, heq]
    · exact hop nd h1
  case _ heq =>
    cases hx
    refine ⟨?_, trivial⟩
    intro nd hnd
    rcases List.mem_cons.mp hnd with h1 | h1
    · rw [h1]
      simp [okOper, heq]
    · exact hop nd h1
  · -- factorial
    repeat' split at hx
    all_goals first
      | exact StepResult.noConfusion hx
      | (cases hx; exact ⟨hop, trivial⟩)
  · -- newline: every outcome is done or oob
    repeat' split at hx
    all_goals exact StepResult.noConfusion hx
  · -- close paren
    split at hx
    · exact StepResult.noConfusion hx
    rename_i top rest heq2
    split at hx
    · exact StepResult.noConfusion hx
    · cases hx
      refine ⟨?_, trivial⟩
      intro nd hnd
      exact hop nd (by rw [heq2]; exact List.mem_cons_of_mem top hnd)
  · exact StepResult.noConfusion hx

/-- One machine step preserves the fold invariant. -/
lemma step_next_invA (s : SymbolTable) (l : List Char) (c c2 : Config)
    (hI : InvA c) : step s l c = .next c2 → InvA c2 := by
  obtain ⟨hop, hcur⟩ := hI
  intro hx
  unfold step at hx
  revert hx
  cases hst : c.state with
  | expectValue =>
    intro hx
    exact stepEV_next_invA s c c2 (get_token l c.it) hst hop hx
  | expectOperator =>
    intro hx
    exact stepEO_next_invA c c2 (get_token l c.it) hop (get_token_ne_global l c.it) hx
  | fold curr =>
    intro hx
    rw [hst] at hcur
    exact stepFold_next_invA c c2 curr hst hop hcur hx
  | dispatch curr =>
    intro hx
    exact stepDispatch_next_invA c c2 curr hop hx

/-- One machine step out of an invariant-satisfying configuration never
hits the `exit(1)` branch. -/
lemma step_ne_abort (s : SymbolTable) (l : List Char) (c : Config)
    (hI : InvA c) : step s l c ≠ .abort := by
  obtain ⟨hop, hcur⟩ := hI
  unfold step
  cases hst : c.state with
  | expectValue => exact stepEV_ne_abort s c (get_token l c.it)
  | expectOperator => exact stepEO_ne_abort c (get_token l c.it)
  | fold curr =>
    rw [hst] at hcur
    exact stepFold_ne_abort c curr hop hcur
  | dispatch curr => exact stepDispatch_ne_abort c curr

/-- No bounded run from an invariant-satisfying configuration ever hits
the `exit(1)` branch. -/
lemma runEval_ne_abort (s : SymbolTable) (l : List Char) :
    ∀ (n : Nat) (c : Config), InvA c → runEval s l n c ≠ .abort := by
  intro n
  induction n with
  | zero =>
    intro c hI
    simp [runEval]
  | succ m ih =>
    intro c hI
    unfold runEval
    cases hs : step s l c with
    | next c2 => exact ih c2 (step_next_invA s l c c2 hI hs)
    | done v => simp
    | abort => exact absurd hs (step_ne_abort s l c hI)
    | oob => simp

/-- The initial configuration satisfies the fold invariant: the operator
stack holds exactly the `NT_Global` sentinel. -/
lemma InvA_init : InvA initConfig := by
  refine ⟨?_, trivial⟩
  intro nd hnd
  simp [initConfig] at hnd
  rw [hnd]
  simp [okOper]

/-- C5: for every symbol table, input line and step budget, the evaluator
never reaches the fold loop's `default` branch (the
`fprintf(stderr, "ERROR: broken parser"); exit(1)` abort): the operator
stack only ever holds the sentinel, open parentheses, unary minus and the
five binary operators, and every token reaching the fold comparison has
left-binding precedence ≥ 1, so the sentinel (precedence {0,0}) and
open-paren entries are never selected for folding. -/
theorem c5_broken_parser_unreachable (s : SymbolTable) (line : List Char) (n : Nat) :
    runEvalAborts s line n = false := by
  unfold runEvalAborts
  cases hr : runEval s line n initConfig with
  | more c => rfl
  | done v => rfl
  | abort => exact absurd hr (runEval_ne_abort s line n initConfig InvA_init)
  | oob => rfl

/-- Looking up any name in an all-real table yields either a real value or
the not-found error value. -/
lemma get_identifier_real_or_notfound (s : SymbolTable) (h : tableOK s)
    (name : List Char) :
    (get_identifier s name).type = .DT_Real ∨
    get_identifier s name = { type := .DT_Error, error := "identifier not found" } := by
  unfold get_identifier
  cases hf : s.entries.find? (fun e => e.1 == name) with
  | none => exact Or.inr rfl
  | some e => exact Or.inl (h e (List.mem_of_find?_eq_some hf))

/-- A Value returned from `ExpectValue` is never the "wrong data type"
error (given an all-real table and a token whose message is not that). -/
lemma stepEV_done (s : SymbolTable) (c : Config) (r : Node × Nat) (v : Value)
    (ht : tableOK s) (herr : r.1.error ≠ "wrong data type") :
    stepEV s c r = .done v → goodDone v := by
  intro hx
  unfold stepEV at hx
  split at hx
  · cases hx
    exact fun hcon => herr hcon.2
  split at hx
  · exact StepResult.noConfusion hx
  · exact StepResult.noConfusion hx
  · exact StepResult.noConfusion hx
  · split at hx
    · rename_i hisErr
      cases hx
      rcases get_identifier_real_or_notfound s ht r.1.name with h2 | h2
      · rw [h2] at hisErr
        exact absurd hisErr (by decide)
      · intro hcon
        rw [h2] at hcon
        exact absurd (show ("identifier not found" : String) = "wrong data type" from hcon.2)
          (by decide)
    · exact StepResult.noConfusion hx
  · exact StepResult.noConfusion hx
  · cases hx
    intro hcon
    exact absurd (show ("expected value" : String) = "wrong data type" from hcon.2) (by decide)

/-- A step out of `ExpectValue` keeps every stacked Value real. -/
lemma stepEV_stack (s : SymbolTable) (c c2 : Config) (r : Node × Nat)
    (ht : tableOK s) (hsk : stackOKL c.stack) :
    stepEV s c r = .next c2 → stackOKL c2.stack := by
  intro hx
  unfold stepEV at hx
  split at hx
  · exact StepResult.noConfusion hx
  split at hx
  · cases hx
    exact hsk
  · cases hx
    exact hsk
  · cases hx
    exact hsk
  · split at hx
    · exact StepResult.noConfusion hx
    · rename_i hnotErr
      cases hx
      intro v hv
      rcases List.mem_cons.mp hv with h1 | h1
      · rw [h1]
        rcases get_identifier_real_or_notfound s ht r.1.name with h2 | h2
        · exact h2
        · exact absurd (by rw [h2]) hnotErr
      · exact hsk v h1
  · cases hx
    intro v hv
    rcases List.mem_cons.mp hv with h1 | h1
    · rw [h1]
    · exact hsk v h1
  · exact StepResult.noConfusion hx

/-- A Value returned from the `ExpectOperator` head is a lexer error and
never the "wrong data type" error. -/
lemma stepEO_done (c : Config) (r : Node × Nat) (v : Value)
    (herr : r.1.error ≠ "wrong data type") :
    stepEO c r = .done v → goodDone v := by
  intro hx
  unfold stepEO at hx
  split at hx
  · cases hx
    exact fun hcon => herr hcon.2
  · exact StepResult.noConfusion hx

/-- The `ExpectOperator` head leaves the value stack unchanged. -/
lemma stepEO_stack (c c2 : Config) (r : Node × Nat) (hsk : stackOKL c.stack) :
    stepEO c r = .next c2 → stackOKL c2.stack := by
  intro hx
  unfold stepEO at hx
  split at hx
  · exact StepResult.noConfusion hx
  · cases hx
    exact hsk

/-- When every stacked Value is real, a Value returned by a fold iteration
is never the "wrong data type" error: the type checks guarding each fold
cannot fire. -/
lemma stepFold_done (c : Config) (curr : Node) (v : Value)
    (hsk : stackOKL c.stack) :
    stepFold c curr = .done v → goodDone v := by
  intro hx
  unfold stepFold at hx
  split at hx
  · exact StepResult.noConfusion hx
  rename_i top rest heq
  split at hx
  · exact StepResult.noConfusion hx
  repeat' split at hx
  all_goals try exact StepResult.noConfusion hx
  all_goals cases hx
  all_goals intro hcon
  · rename_i a s hstk hty
    exact hty (hsk a (by rw [hstk]; exact List.mem_cons_self a s))
  · rename_i a b s hstk hty
    rcases hty with h1 | h1
    · exact h1 (hsk a (by rw [hstk]; exact List.mem_cons_self a (b :: s)))
    · exact h1 (hsk b (by rw [hstk]; exact List.mem_cons_of_mem a (List.mem_cons_self b s)))
  · rename_i a b s hstk hty
    rcases hty with h1 | h1
    · exact h1 (hsk a (by rw [hstk]; exact List.mem_cons_self a (b :: s)))
    · exact h1 (hsk b (by rw [hstk]; exact List.mem_cons_of_mem a (List.mem_cons_self b s)))
  · rename_i a b s hstk hty
    rcases hty with h1 | h1
    · exact h1 (hsk a (by rw [hstk]; exact List.mem_cons_self a (b :: s)))
    · exact h1 (hsk b (by rw [hstk]; exact List.mem_cons_of_mem a (List.mem_cons_self b s)))
  · rename_i a b s hstk hty
    rcases hty with h1 | h1
    · exact h1 (hsk a (by rw [hstk]; exact List.mem_cons_self a (b :: s)))
    · exact h1 (hsk b (by rw [hstk]; exact List.mem_cons_of_mem a (List.mem_cons_self b s)))
  · exact absurd (show ("divide by zero" : String) = "wrong data type" from hcon.2)
      (by decide)
  · rename_i a b s hstk hty
    rcases hty with h1 | h1
    · exact h1 (hsk a (by rw [hstk]; exact List.mem_cons_self a (b :: s)))
    · exact h1 (hsk b (by rw [hstk]; exact List.mem_cons_of_mem a (List.mem_cons_self b s)))
  · exact absurd (show ("negative power base" : String) = "wrong data type" from hcon.2)
      (by decide)

/-- A fold iteration keeps every stacked Value real: applying an operator
rewrites only the `real` payload of the slot it folds into. -/
lemma stepFold_stack (c c2 : Config) (curr : Node) (hsk : stackOKL c.stack) :
    stepFold c curr = .next c2 → stackOKL c2.stack := by
  intro hx
  unfold stepFold at hx
  split at hx
  · exact StepResult.noConfusion hx
  rename_i top rest heq
  split at hx
  · cases hx
    exact hsk
  repeat' split at hx
  all_goals try exact StepResult.noConfusion hx
  all_goals cases hx
  · rename_i a s hstk hno
    intro v hv
    rcases List.mem_cons.mp hv with h1 | h1
    · rw [h1]
      exact hsk a (by rw [hstk]; exact List.mem_cons_self a s)
    · exact hsk v (by rw [hstk]; exact List.mem_cons_of_mem a h1)
  · rename_i a b s hstk hno
    intro v hv
    rcases List.mem_cons.mp hv with h1 | h1
    · rw [h1]
      exact hsk b (by rw [hstk]; exact List.mem_cons_of_mem a (List.mem_cons_self b s))
    · exact hsk v (by rw [hstk]; exact List.mem_cons_of_mem a (List.mem_cons_of_mem b h1))
  · rename_i a b s hstk hno
    intro v hv
    rcases List.mem_cons.mp hv with h1 | h1
    · rw [h1]
      exact hsk b (by rw [hstk]; exact List.mem_cons_of_mem a (List.mem_cons_self b s))
    · exact hsk v (by rw [hstk]; exact List.mem_cons_of_mem a (List.mem_cons_of_mem b h1))
  · rename_i a b s hstk hno
    intro v hv
    rcases List.mem_cons.mp hv with h1 | h1
    · rw [h1]
      exact hsk b (by rw [hstk]; exact List.mem_cons_of_mem a (List.mem_cons_self b s))
    · exact hsk v (by rw [hstk]; exact List.mem_cons_of_mem a (List.mem_cons_of_mem b h1))
  · rename_i a b s hstk hno hz
    intro v hv
    rcases List.mem_cons.mp hv with h1 | h1
    · rw [h1]
      exact hsk b (by rw [hstk]; exact List.mem_cons_of_mem a (List.mem_cons_self b s))
    · exact hsk v (by rw [hstk]; exact List.mem_cons_of_mem a (List.mem_cons_of_mem b h1))
  · rename_i a b s hstk hno hneg
    intro v hv
    rcases List.mem_cons.mp hv with h1 | h1
    · rw [h1]
      exact hsk b (by rw [hstk]; exact List.mem_cons_of_mem a (List.mem_cons_self b s))
    · exact hsk v (by rw [hstk]; exact List.mem_cons_of_mem a (List.mem_cons_of_mem b h1))

/-- When every stacked Value is real, a Value returned by the dispatch
switch is never the "wrong data type" error — in particular the line's
successful result is a real Value. -/
lemma stepDispatch_done (c : Config) (curr : Node) (v : Value)
    (hsk : stackOKL c.stack) :
    stepDispatch c curr = .done v → goodDone v := by
  intro hx
  unfold stepDispatch at hx
  repeat' split at hx
  all_goals try exact StepResult.noConfusion hx
  all_goals cases hx
  all_goals intro hcon
  · rename_i a s hstk hty
    exact hty (hsk a (by rw [hstk]; exact List.mem_cons_self a s))
  · exact absurd (show ("factorial of negative number" : String) = "wrong data type"
      from hcon.2) (by decide)
  · exact absurd (show ("parenthesis not closed" : String) = "wrong data type"
      from hcon.2) (by decide)
  · rename_i hlen hw
    have hv := hsk _ (mem_of_getLast?_eq_some hw)
    rw [hv] at hcon
    exact absurd hcon.1 (by decide)
  · exact absurd (show ("mismatched parenthesis" : String) = "wrong data type"
      from hcon.2) (by decide)
  · exact absurd (show ("expected operator" : String) = "wrong data type"
      from hcon.2) (by decide)

/-- A dispatch step keeps every stacked Value real. -/
lemma stepDispatch_stack (c c2 : Config) (curr : Node) (hsk : stackOKL c.stack) :
    stepDispatch c curr = .next c2 → stackOKL c2.stack := by
  intro hx
  unfold stepDispatch at hx
  repeat' split at hx
  all_goals try exact StepResult.noConfusion hx
  all_goals cases hx
  all_goals try exact hsk
  rename_i a s hstk hty hneg
  intro v hv
  rcases List.mem_cons.mp hv with h1 | h1
  · rw [h1]
    exact hsk a (by rw [hstk]; exact List.mem_cons_self a s)
  · exact hsk v (by rw [hstk]; exact List.mem_cons_of_mem a h1)

/-- One machine step keeps every stacked Value real (all-real table). -/
lemma step_stack (s : SymbolTable) (l : List Char) (c c2 : Config)
    (ht : tableOK s) (hsk : stackOKL c.stack) :
    step s l c = .next c2 → stackOKL c2.stack := by
  intro hx
  unfold step at hx
  revert hx
  cases hst : c.state with
  | expectValue =>
    intro hx
    exact stepEV_stack s c c2 (get_token l c.it) ht hsk hx
  | expectOperator =>
    intro hx
    exact stepEO_stack c c2 (get_token l c.it) hsk hx
  | fold curr =>
    intro hx
    exact stepFold_stack c c2 curr hsk hx
  | dispatch curr =>
    intro hx
    exact stepDispatch_stack c c2 curr hsk hx

/-- A Value returned by one machine step is never the "wrong data type"
error (all-real table, all-real stack). -/
lemma step_done (s : SymbolTable) (l : List Char) (c : Config) (v : Value)
    (ht : tableOK s) (hsk : stackOKL c.stack) :
    step s l c = .done v → goodDone v := by
  intro hx
  unfold step at hx
  revert hx
  cases hst : c.state with
  | expectValue =>
    intro hx
    exact stepEV_done s c (get_token l c.it) v ht (get_token_error_ne l c.it) hx
  | expectOperator =>
    intro hx
    exact stepEO_done c (get_token l c.it) v (get_token_error_ne l c.it) hx
  | fold curr =>
    intro hx
    exact stepFold_done c curr v hsk hx
  | dispatch curr =>
    intro hx
    exact stepDispatch_done c curr v hsk hx

/-- Bounded runs from an all-real stack keep all stacked values real and
never return the "wrong data type" error. -/
lemma runEval_all_real (s : SymbolTable) (l : List Char) (ht : tableOK s) :
    ∀ (n : Nat) (c : Config), stackOKL c.stack →
      stackAllRealR (runEval s l n c) ∧ noWrongTypeR (runEval s l n c) := by
  intro n
  induction n with
  | zero =>
    intro c hsk
    exact ⟨hsk, trivial⟩
  | succ m ih =>
    intro c hsk
    unfold runEval
    cases hs : step s l c with
    | next c2 => exact ih c2 (step_stack s l c c2 ht hsk hs)
    | done v => exact ⟨trivial, step_done s l c v ht hsk hs⟩
    | abort => exact ⟨trivial, trivial⟩
    | oob => exact ⟨trivial, trivial⟩

/-- C10: with an all-real symbol table (as seeded by this program, and
never written during evaluation), every Value ever pushed onto the value
stack has kind `DT_Real`; hence the "wrong data type" operand checks in
the fold loop and the factorial branch are dead code, and `evaluate_line`
never returns an error Value with message "wrong data type". -/
theorem c10_wrong_data_type_dead (s : SymbolTable) (h : tableOK s)
    (line : List Char) (n : Nat) :
    stackAllRealR (runEval s line n initConfig) ∧
    noWrongTypeR (runEval s line n initConfig) ∧
    evalGood (evaluate_line s line) := by
  have hmain := runEval_all_real s line h n initConfig
    (fun v hv => absurd hv (List.not_mem_nil v))
  refine ⟨hmain.1, hmain.2, ?_⟩
  have h2 := runEval_all_real s line h (6 * line.length + 8) initConfig
    (fun v hv => absurd hv (List.not_mem_nil v))
  unfold evaluate_line
  cases hr : runEval s line (6 * line.length + 8) initConfig with
  | done v =>
    have h3 := h2.2
    rw [hr] at h3
    exact h3
  | more c => exact trivial
  | abort => exact trivial
  | oob => exact trivial

/-- C10 witness: the seeded table is all-real, and a concrete run of
"2 * 3" satisfies the conclusion. -/
theorem c10_wrong_data_type_dead_witness :
    tableOK seedSymbols ∧
    (stackAllRealR (runEval seedSymbols ("2 * 3".toList) 30 initConfig) ∧
     noWrongTypeR (runEval seedSymbols ("2 * 3".toList) 30 initConfig) ∧
     evalGood (evaluate_line seedSymbols ("2 * 3".toList))) :=
  ⟨by unfold tableOK; decide,
    c10_wrong_data_type_dead seedSymbols (by unfold tableOK; decide) ("2 * 3".toList) 30⟩

/-- A step out of `ExpectValue` grows each stack by at most one slot. -/
lemma stepEV_growth (s : SymbolTable) (c c2 : Config) (r : Node × Nat) :
    stepEV s c r = .next c2 →
    c2.opers.length ≤ c.opers.length + 1 ∧ c2.stack.length ≤ c.stack.length + 1 := by
  intro hx
  unfold stepEV at hx
  repeat' split at hx
  all_goals try exact StepResult.noConfusion hx
  all_goals cases hx
  all_goals refine ⟨?_, ?_⟩
  all_goals simp only [List.length_cons]
  all_goals omega

/-- The `ExpectOperator` head leaves both stacks untouched. -/
lemma stepEO_growth (c c2 : Config) (r : Node × Nat) :
    stepEO c r = .next c2 →
    c2.opers.length ≤ c.opers.length + 1 ∧ c2.stack.length ≤ c.stack.length + 1 := by
  intro hx
  unfold stepEO at hx
  split at hx
  · exact StepResult.noConfusion hx
  · cases hx
    exact ⟨Nat.le_succ _, Nat.le_succ _⟩

/-- A fold iteration only pops, so it grows neither stack. -/
lemma stepFold_growth (c c2 : Config) (curr : Node) :
    stepFold c curr = .next c2 →
    c2.opers.length ≤ c.opers.length + 1 ∧ c2.stack.length ≤ c.stack.length + 1 := by
  intro hx
  unfold stepFold at hx
  repeat' split at hx
  all_goals try exact StepResult.noConfusion hx
  all_goals cases hx
  all_goals rename_i heq2 hcond
  all_goals refine ⟨?_, ?_⟩
  all_goals simp_all [List.length_cons]
  all_goals omega

/-- A dispatch step grows each stack by at most one slot. -/
lemma stepDispatch_growth (c c2 : Config) (curr : Node) :
    stepDispatch c curr = .next c2 →
    c2.opers.length ≤ c.opers.length + 1 ∧ c2.stack.length ≤ c.stack.length + 1 := by
  intro hx
  unfold stepDispatch at hx
  repeat' split at hx
  all_goals try exact StepResult.noConfusion hx
  all_goals cases hx
  all_goals refine ⟨?_, ?_⟩
  all_goals simp_all [List.length_cons]
  all_goals omega

/-- One machine step grows each stack by at most one slot. -/
lemma step_growth (s : SymbolTable) (l : List Char) (c c2 : Config) :
    step s l c = .next c2 →
    c2.opers.length ≤ c.opers.length + 1 ∧ c2.stack.length ≤ c.stack.length + 1 := by
  intro hx
  unfold step at hx
  revert hx
  cases hst : c.state with
  | expectValue => exact stepEV_growth s c c2 (get_token l c.it)
  | expectOperator => exact stepEO_growth c c2 (get_token l c.it)
  | fold curr => exact stepFold_growth c c2 curr
  | dispatch curr => exact stepDispatch_growth c c2 curr

/-- A run that is still going after `n` steps has grown each stack by at
most `n` slots. -/
lemma runEval_growth (s : SymbolTable) (l : List Char) :
    ∀ (n : Nat) (c c2 : Config), runEval s l n c = .more c2 →
      c2.opers.length ≤ c.opers.length + n ∧ c2.stack.length ≤ c.stack.length + n := by
  intro n
  induction n with
  | zero =>
    intro c c2 h
    cases h
    exact ⟨Nat.le_refl _, Nat.le_refl _⟩
  | succ m ih =>
    intro c c2 h
    unfold runEval at h
    revert h
    cases hs : step s l c with
    | next c3 =>
      intro h
      have h1 := step_growth s l c c3 hs
      have h2 := ih c3 c2 h
      exact ⟨by omega, by omega⟩
    | done v => exact fun h => RunResult.noConfusion h
    | abort => exact fun h => RunResult.noConfusion h
    | oob => exact fun h => RunResult.noConfusion h

/-- C4 counterexample: it is not the case that the stacks stay within the
64-slot arrays on every line — on the 65-open-parentheses line (which fits
the 256-byte buffer) the operator stack exceeds 64 entries, i.e. the C
code pushes `opers[64]`, one slot past the array, after 64 steps. -/
theorem c4_counterexample :
    ¬ (∀ n : Nat, opersLenAfter seedSymbols line65 n ≤ 64) := by
  intro hall
  exact absurd (hall 64) (by decide)

/-- C4 amended: each evaluator step grows the operator stack to at most
step-count + 1 nodes and the value stack to at most step-count values, but
the stacks are NOT confined to the 64-slot arrays for every line the
256-byte buffer can hold: a line of 64 (in particular 65) consecutive open
parentheses drives the operator stack to 65 entries — the 64th push writes
`opers[64]`, one past the array — so accesses stay at indices 0..63 only
for lines that never hold more than 64 pending operators or values. -/
theorem c4_stack_bounds :
    (∀ (s : SymbolTable) (line : List Char) (n : Nat),
        lengthsWithin (runEval s line n initConfig) n) ∧
    opersLenAfter seedSymbols line65 64 = 65 := by
  constructor
  · intro s line n
    unfold lengthsWithin
    cases hr : runEval s line n initConfig with
    | more c =>
      have hg := runEval_growth s line n initConfig c hr
      have h1 : initConfig.opers.length = 1 := rfl
      have h2 : initConfig.stack.length = 0 := rfl
      rw [h1, h2] at hg
      exact ⟨by omega, by omega⟩
    | done v => exact trivial
    | abort => exact trivial
    | oob => exact trivial
  · decide

end MathRepl
